import Mathlib

/-!
Verification of the Moemail temporary-mailbox client
(`src/core/moemail_client.py`, class `MoemailClient`).

Shallow embedding conventions:
* The HTTP transport is an oracle: each request outcome is
  `Except Unit R` where `Except.error ()` means the underlying
  `requests` call (or the subsequent `.json()` parse, where the two
  sit inside the same `try` block) raised an exception.
* Python `dict.get(key)` on a possibly-absent field is `Option`;
  `dict.get(key, default)` is `Option.getD`.
* Python truthiness on strings is `≠ ""`, on lists `≠ []`.
* The black-box collaborator `extract_verification_code` (imported
  from `core.mail_utils`, outside this module) is a parameter
  `extract : String → Option String`; so is the timestamp parser
  `datetime.fromisoformat` composed with the regex normalisation
  (`parseTs : String → Option Int`, `none` meaning the parse raised).
* Functions that issue network requests additionally return the list
  of requests they performed, in order, so that claims about the
  number of network calls can be stated.
-/

/-- A content field value as the client distinguishes it: either a
plain string or a list of fragments; the client only ever applies
`str(...)` to the fragments, so they are modelled already stringified. -/
inductive PyContent where
  | str (s : String)
  | frags (xs : List String)
deriving DecidableEq

/-- Python truthiness of a content value: a string is truthy when
non-empty, a list when non-empty. -/
def PyContent.truthy : PyContent → Bool
  | .str s => s ≠ ""
  | .frags xs => xs ≠ []

/-- The `a or b or c or ""` chain over `detail.get(...)` lookups:
first present and truthy candidate, else the empty string. -/
def firstTruthy : List (Option PyContent) → PyContent
  | [] => .str ""
  | none :: rest => firstTruthy rest
  | some v :: rest => if v.truthy then v else firstTruthy rest

/-- `"".join(str(item) for item in xs)` applied when the value
`isinstance(..., list)`; a string is left unchanged. -/
def PyContent.toStr : PyContent → String
  | .str s => s
  | .frags xs => String.join xs

/-- One entry of the `messages` list returned by
`GET /api/emails/{emailId}` (the fields the client reads). -/
structure Msg where
  id : Option String
  createdAt : Option String
  receivedAt : Option String
  content : Option String
deriving DecidableEq

/-- Parsed body of the message-list response: `res.content` empty
(so `data = {}`), `res.json()` raising, or a JSON object whose
`data.get("messages", [])` is the given list. -/
inductive ListBody where
  | empty
  | malformed
  | json (messages : List Msg)

/-- The message-list response. -/
structure ListResp where
  status : Nat
  body : ListBody

/-- The candidate content fields of a message-detail object. -/
structure DetailFields where
  text : Option PyContent
  textContent : Option PyContent
  content : Option PyContent
  html : Option PyContent
  htmlContent : Option PyContent
deriving DecidableEq

/-- Parsed body of a message-detail response.  In the `json` case,
`message` is `some f` exactly when the object has a `"message"` key
holding a dict `f` (the envelope the client unwraps one level of),
and `fields` are the top-level candidate fields. -/
inductive DetailBody where
  | empty
  | malformed
  | json (message : Option DetailFields) (fields : DetailFields)

/-- The message-detail response. -/
structure DetailResp where
  status : Nat
  body : DetailBody

/-- A network request the client can issue while fetching a code. -/
inductive Req where
  | list
  | detail (msgId : String)
deriving DecidableEq

/-- The transport oracle for `fetch_verification_code`: the outcome of
the message-list request and, per message id, of the detail request. -/
structure Transport where
  listReq : Except Unit ListResp
  detailReq : String → Except Unit DetailResp

/-- `msg.get("createdAt") or msg.get("receivedAt")`, with absent
fields read as `""` (both absent and `""` are falsy). -/
def createdAtOrReceivedAt (m : Msg) : String :=
  let c := m.createdAt.getD ""
  if c ≠ "" then c else m.receivedAt.getD ""

/-- The time filter applied to one message (lines 211–224): when a
`since_time` is given and the message carries a truthy
creation/received timestamp that parses to a time strictly before
`since`, the message is skipped; a missing timestamp or a parse
exception means no filtering for that message. -/
def timeSkip (parseTs : String → Option Int) (since : Option Int) (m : Msg) : Bool :=
  match since with
  | none => false
  | some s =>
    let ca := createdAtOrReceivedAt m
    if ca = "" then false
    else
      match parseTs ca with
      | none => false
      | some tm => decide (tm < s)

/-- The `for msg in messages` loop of `fetch_verification_code`
(lines 206–267), returning the code found (if any) together with the
detail requests issued, in order.  A transport or JSON-parse
exception on a detail request aborts the whole fetch with `none`
(it propagates to the outer `try`), while a non-200 detail status
merely skips to the next message. -/
def fetchLoop (t : Transport) (extract : String → Option String)
    (parseTs : String → Option Int) (since : Option Int) :
    List Msg → Option String × List Req
  | [] => (none, [])
  | m :: rest =>
    if m.id.getD "" = "" then
      fetchLoop t extract parseTs since rest
    else if timeSkip parseTs since m then
      fetchLoop t extract parseTs since rest
    else
      let msgId := m.id.getD ""
      let listContent := m.content.getD ""
      let inlineCode : Option String :=
        if listContent ≠ "" then
          match extract listContent with
          | some c => if c ≠ "" then some c else none
          | none => none
        else none
      match inlineCode with
      | some c => (some c, [])
      | none =>
        match t.detailReq msgId with
        | .error _ => (none, [Req.detail msgId])
        | .ok dr =>
          if dr.status ≠ 200 then
            let r := fetchLoop t extract parseTs since rest
            (r.1, Req.detail msgId :: r.2)
          else
            match dr.body with
            | .malformed => (none, [Req.detail msgId])
            | .empty =>
              let r := fetchLoop t extract parseTs since rest
              (r.1, Req.detail msgId :: r.2)
            | .json env fields =>
              let fl := env.getD fields
              let textC := firstTruthy [fl.text, fl.textContent, fl.content]
              let htmlC := firstTruthy [fl.html, fl.htmlContent]
              let content := textC.toStr ++ htmlC.toStr
              let codeOpt : Option String :=
                if content ≠ "" then
                  match extract content with
                  | some c => if c ≠ "" then some c else none
                  | none => none
                else none
              match codeOpt with
              | some c => (some c, [Req.detail msgId])
              | none =>
                let r := fetchLoop t extract parseTs since rest
                (r.1, Req.detail msgId :: r.2)

/-- `MoemailClient.fetch_verification_code` (lines 168–271): returns
the verification code found (if any) and the list of network requests
issued, in order.  `emailId` is the client's `self.email_id`; the
guard `if not self.email_id` fires when it is unset or empty, before
any request is made. -/
def fetch_verification_code (emailId : Option String) (t : Transport)
    (extract : String → Option String) (parseTs : String → Option Int)
    (since : Option Int) : Option String × List Req :=
  if emailId.getD "" = "" then (none, [])
  else
    match t.listReq with
    | .error _ => (none, [Req.list])
    | .ok r =>
      if r.status ≠ 200 then (none, [Req.list])
      else
        match r.body with
        | .malformed => (none, [Req.list])
        | .empty => (none, [Req.list])
        | .json msgs =>
          if msgs.isEmpty then (none, [Req.list])
          else
            let out := fetchLoop t extract parseTs since msgs
            (out.1, Req.list :: out.2)

/-- The Python exceptions `poll_for_code` can let escape: the
`ZeroDivisionError` of `timeout // interval` when `interval = 0`, and
the `ValueError` of `time.sleep(interval)` when a sleep executes with
a negative `interval` ("sleep length must be non-negative"). -/
inductive PyErr where
  | zeroDivisionError
  | valueError
deriving DecidableEq

/-- The `for i in range(1, max_retries + 1)` loop of `poll_for_code`
(lines 282–292), recursing on `remaining = max_retries - i + 1`
(so `i < max_retries` is `remaining ≥ 2`).  `f i` is the result of
the `i`-th invocation of `fetch_verification_code`.  Each sleep is
`time.sleep(interval)`, which raises `ValueError` (uncaught — the
loop has no handler) when `interval` is negative.  On normal exit,
returns the result together with the number of fetch invocations
performed and the number of sleeps performed. -/
def pollRun (f : Nat → Option String) (interval : Int) :
    Nat → Nat → Except PyErr (Option String × Nat × Nat)
  | _, 0 => .ok (none, 0, 0)
  | i, 1 =>
    match f i with
    | some c => .ok (some c, 1, 0)
    | none => .ok (none, 1, 0)
  | i, k + 2 =>
    match f i with
    | some c => .ok (some c, 1, 0)
    | none =>
      if interval < 0 then .error .valueError
      else
        match pollRun f interval (i + 1) (k + 1) with
        | .error e => .error e
        | .ok r => .ok (r.1, r.2.1 + 1, r.2.2 + 1)

/-- `MoemailClient.poll_for_code` (lines 273–292).
`max_retries = timeout // interval` is Python floor division, which
raises `ZeroDivisionError` when `interval = 0`; that uncaught raise
is the first error case.  For a negative `max_retries` the `range`
is empty, hence `Int.toNat`. -/
def poll_for_code (f : Nat → Option String) (timeout interval : Int) :
    Except PyErr (Option String × Nat × Nat) :=
  if interval = 0 then .error .zeroDivisionError
  else pollRun f interval 1 (Int.fdiv timeout interval).toNat

/-- Response of `GET /api/config` as the client reads it:
`emailDomains` is `data.get("emailDomains", "")` with the key
possibly absent.  A raise of the request or of `res.json()` (both
inside the same `try`) is the `Except.error` case of the oracle. -/
structure ConfigResp where
  status : Nat
  emailDomains : Option String

/-- `MoemailClient._get_available_domains` (lines 84–103): `cache` is
the current `self._available_domains`; the returned list is also the
new value of the cache (every path assigns it before returning). -/
def get_available_domains (cache : List String)
    (cfg : Except Unit ConfigResp) : List String :=
  if cache ≠ [] then cache
  else
    match cfg with
    | .error _ => ["moemail.app"]
    | .ok r =>
      if r.status = 200 then
        let emailDomainsStr := r.emailDomains.getD ""
        if emailDomainsStr ≠ "" then
          ((emailDomainsStr.splitOn ",").map String.trim).filter (· ≠ "")
        else ["moemail.app"]
      else ["moemail.app"]

/-- The domain-selection step of `register_account` (lines 110–121):
explicit argument first, else the client's configured `self.domain`,
else a random pick (`choice`) from the available-domain list, else
the hardcoded `"moemail.app"` when that list is empty. -/
def register_selected_domain (arg : Option String) (selfDomain : String)
    (cache : List String) (cfg : Except Unit ConfigResp)
    (choice : List String → String) : String :=
  let d1 := arg.getD ""
  let d2 := if d1 = "" then selfDomain else d1
  if d2 = "" then
    let available := get_available_domains cache cfg
    if available ≠ [] then choice available else "moemail.app"
  else d2

/-- The mailbox identity stored on the client:
`self.email`, `self.email_id`, `self.password`. -/
structure ClientState where
  email : Option String
  email_id : Option String
  password : Option String
deriving DecidableEq

/-- Parsed body of the `POST /api/emails/generate` response:
`res.content` empty (`data = {}`), `res.json()` raising, or a JSON
object with possibly-absent `email` and `id` fields. -/
inductive GenBody where
  | empty
  | malformed
  | json (email : Option String) (id : Option String)

/-- The mailbox-generation response. -/
structure GenResp where
  status : Nat
  body : GenBody

/-- The request/store/return part of `MoemailClient.register_account`
(lines 132–161), as a function of the prior stored identity and the
transport outcome; returns the boolean result and the new identity.
On a 2xx status the client assigns `self.email`, `self.email_id` and
`self.password` from the body before checking them for truthiness,
so that path rewrites the state even when it returns `False`; a
transport raise, a `res.json()` raise, or a non-2xx status leaves the
state untouched. -/
def register_account (st : ClientState) (r : Except Unit GenResp) :
    Bool × ClientState :=
  match r with
  | .error _ => (false, st)
  | .ok resp =>
    if resp.status = 200 ∨ resp.status = 201 then
      match resp.body with
      | .malformed => (false, st)
      | .empty =>
        let st2 : ClientState := ⟨some "", some "", some ""⟩
        (false, st2)
      | .json e i =>
        let em := e.getD ""
        let id := i.getD ""
        let st2 : ClientState := ⟨some em, some id, some id⟩
        if em ≠ "" ∧ id ≠ "" then (true, st2) else (false, st2)
    else (false, st)

/-! ## Helper lemmas about the polling loop -/

/-- When every attempt in the window fails, the loop performs all of
them, sleeping after each but the last; with a nonnegative interval
no sleep raises. -/
theorem pollRun_all_none (f : Nat → Option String) (interval : Int)
    (hint : 0 ≤ interval) :
    ∀ rem i, 1 ≤ rem → (∀ j, i ≤ j → j < i + rem → f j = none) →
      pollRun f interval i rem = .ok (none, rem, rem - 1) := by
  have hneg : ¬ interval < 0 := not_lt.mpr hint
  intro rem
  induction rem with
  | zero => intro i h _; omega
  | succ k ih =>
    intro i _ hall
    match k with
    | 0 =>
      have h1 : f i = none := hall i (le_refl i) (by omega)
      simp [pollRun, h1]
    | k2 + 1 =>
      have h1 : f i = none := hall i (le_refl i) (by omega)
      have ih2 := ih (i + 1) (by omega)
        (fun j hj1 hj2 => hall j (by omega) (by omega))
      simp [pollRun, h1, hneg, ih2]

/-- When the first success is attempt `k` inside the window, the loop
stops there: `k - i + 1` fetches and `k - i` sleeps; with a
nonnegative interval no sleep raises. -/
theorem pollRun_first_some (f : Nat → Option String) (interval : Int)
    (hint : 0 ≤ interval) :
    ∀ rem i k c, i ≤ k → k < i + rem →
      (∀ j, i ≤ j → j < k → f j = none) → f k = some c →
      pollRun f interval i rem = .ok (some c, k - i + 1, k - i) := by
  have hneg : ¬ interval < 0 := not_lt.mpr hint
  intro rem
  induction rem with
  | zero => intro i k c h1 h2 _ _; omega
  | succ n ih =>
    intro i k c hik hkr hnone hk
    match n with
    | 0 =>
      have hki : k = i := by omega
      subst hki
      simp [pollRun, hk]
    | n2 + 1 =>
      by_cases hek : k = i
      · subst hek
        simp [pollRun, hk]
      · have h1 : f i = none := hnone i (le_refl i) (by omega)
        have ih2 := ih (i + 1) k c (by omega) (by omega)
          (fun j hj1 hj2 => hnone j (by omega) hj2) hk
        have e2 : k - (i + 1) + 1 = k - i := by omega
        simp [pollRun, h1, hneg, ih2, e2]

/-! ## Claim theorems -/

/-- C1: for every timeout and positive interval, `poll_for_code`
performs exactly `timeout div interval` (floor division) invocations
of `fetch_verification_code`; if an invocation yields a code it
returns it immediately with no further fetches or sleeps (attempt `k`
succeeding means `k` fetches, `k - 1` sleeps); an unsuccessful run
with `n ≥ 1` attempts performs `n` fetches and `n - 1` sleeps and
returns nothing. -/
theorem poll_for_code_attempt_counts (f : Nat → Option String)
    (timeout interval : Int) (ht : 0 ≤ timeout) (hi : 0 < interval) :
    (1 ≤ (Int.fdiv timeout interval).toNat →
      (∀ i, 1 ≤ i → i ≤ (Int.fdiv timeout interval).toNat → f i = none) →
      poll_for_code f timeout interval =
        .ok (none, (Int.fdiv timeout interval).toNat,
          (Int.fdiv timeout interval).toNat - 1)) ∧
    (∀ k c, 1 ≤ k → k ≤ (Int.fdiv timeout interval).toNat →
      (∀ i, 1 ≤ i → i < k → f i = none) → f k = some c →
      poll_for_code f timeout interval = .ok (some c, k, k - 1)) := by
  have hne : interval ≠ 0 := by omega
  have hnn : (0:Int) ≤ interval := le_of_lt hi
  constructor
  · intro hn hall
    have hrun := pollRun_all_none f interval hnn
      ((Int.fdiv timeout interval).toNat) 1 hn
      (fun j hj1 hj2 => hall j hj1 (by omega))
    simp [poll_for_code, hne, hrun]
  · intro k c hk1 hkn hnone hk
    have hrun := pollRun_first_some f interval hnn
      ((Int.fdiv timeout interval).toNat) 1 k c
      hk1 (by omega) (fun j hj1 hj2 => hnone j hj1 hj2) hk
    have hk2 : k - 1 + 1 = k := by omega
    rw [hk2] at hrun
    simp [poll_for_code, hne, hrun]

/-- Witness for C1: `poll_for_code(timeout=10, interval=4)` makes
exactly 2 attempts and 1 sleep when unsuccessful, and stops after 2
fetches and 1 sleep when the second attempt succeeds. -/
theorem poll_for_code_attempt_counts_witness :
    poll_for_code (fun _ => none) 10 4 = .ok (none, 2, 1) ∧
    poll_for_code (fun i => if i = 2 then some "42" else none) 10 4 =
      .ok (some "42", 2, 1) :=
  ⟨(poll_for_code_attempt_counts (fun _ => none) 10 4
      (by decide) (by decide)).1 (by decide) (fun _ _ _ => rfl),
   (poll_for_code_attempt_counts (fun i => if i = 2 then some "42" else none)
      10 4 (by decide) (by decide)).2 2 "42" (by decide) (by decide)
      (by intro i h1 h2
          have he : i = 1 := by omega
          subst he
          rfl)
      rfl⟩

/-- C4: when the interval exceeds the (nonnegative) timeout, the
division yields zero attempts: no fetch, no sleep, immediate `none`. -/
theorem poll_for_code_zero_attempts (f : Nat → Option String)
    (timeout interval : Int) (ht : 0 ≤ timeout) (hlt : timeout < interval) :
    poll_for_code f timeout interval = .ok (none, 0, 0) := by
  have hne : interval ≠ 0 := by omega
  have hfd : Int.fdiv timeout interval = 0 := by
    rw [Int.fdiv_eq_ediv _ (by omega)]
    exact Int.ediv_eq_zero_of_lt ht hlt
  simp [poll_for_code, hne, hfd, pollRun]

/-- Witness for C4: `poll_for_code(timeout=3, interval=4)` returns
nothing with zero fetches and zero sleeps. -/
theorem poll_for_code_zero_attempts_witness :
    poll_for_code (fun _ => some "42") 3 4 = .ok (none, 0, 0) :=
  poll_for_code_zero_attempts (fun _ => some "42") 3 4 (by decide) (by decide)

/-- C2 counterexample: the claim quantifies over every timeout and
interval value, but `poll_for_code` can raise to its caller instead
of returning an optional string: with `interval = 0` Python's
`timeout // interval` raises `ZeroDivisionError`, and with
`timeout = -8, interval = -4` the division yields `max_retries = 2`,
the first code-less attempt is not the last, and `time.sleep(-4)`
raises `ValueError`; neither is caught by any handler. -/
theorem poll_for_code_interval_zero_raises :
    poll_for_code (fun _ => none) 120 0 = .error .zeroDivisionError ∧
    poll_for_code (fun _ => none) (-8) (-4) = .error .valueError :=
  ⟨rfl, rfl⟩

/-- With a nonnegative sleep argument the polling loop never raises. -/
theorem pollRun_ok_of_nonneg (f : Nat → Option String) (interval : Int)
    (hint : 0 ≤ interval) :
    ∀ rem i, ∃ out, pollRun f interval i rem = .ok out := by
  have hneg : ¬ interval < 0 := not_lt.mpr hint
  intro rem
  induction rem with
  | zero => intro i; exact ⟨(none, 0, 0), rfl⟩
  | succ k ih =>
    intro i
    match k with
    | 0 =>
      cases hf : f i with
      | some c => exact ⟨(some c, 1, 0), by simp [pollRun, hf]⟩
      | none => exact ⟨(none, 1, 0), by simp [pollRun, hf]⟩
    | k2 + 1 =>
      cases hf : f i with
      | some c => exact ⟨(some c, 1, 0), by simp [pollRun, hf]⟩
      | none =>
        obtain ⟨out, hout⟩ := ih (i + 1)
        exact ⟨(out.1, out.2.1 + 1, out.2.2 + 1),
          by simp [pollRun, hf, hneg, hout]⟩

/-- C2 (amended): no public operation raises for every timeout and
every positive interval; `poll_for_code` with positive interval
always returns a value (for `interval = 0` the division raises, and
for a negative interval a reached sleep raises — see the
counterexample), and a raising transport is converted to a negative
or empty result: `fetch_verification_code` returns no code and
`register_account` returns failure with the state unchanged. -/
theorem client_never_raises (f : Nat → Option String)
    (timeout interval : Int) (hi : 0 < interval) :
    (∃ out, poll_for_code f timeout interval = .ok out) ∧
    (∀ emailId t extract parseTs since, t.listReq = .error () →
      (fetch_verification_code emailId t extract parseTs since).1 = none) ∧
    (∀ st : ClientState, register_account st (.error ()) = (false, st)) := by
  refine ⟨?_, ?_, ?_⟩
  · have hne : interval ≠ 0 := by omega
    obtain ⟨out, hout⟩ := pollRun_ok_of_nonneg f interval (le_of_lt hi)
      ((Int.fdiv timeout interval).toNat) 1
    exact ⟨out, by simp [poll_for_code, hne, hout]⟩
  · intro emailId t extract parseTs since herr
    by_cases hid : emailId.getD "" = ""
    · simp [fetch_verification_code, hid]
    · simp [fetch_verification_code, hid, herr]
  · intro st
    rfl

/-- Witness for C2 (amended): concrete positive interval and a
transport whose every request raises. -/
theorem client_never_raises_witness :
    (∃ out, poll_for_code (fun _ => none) 120 4 = .ok out) ∧
    (fetch_verification_code (some "box") ⟨.error (), fun _ => .error ()⟩
      (fun _ => none) (fun _ => none) none).1 = none ∧
    register_account ⟨none, none, none⟩ (.error ()) =
      (false, ⟨none, none, none⟩) :=
  ⟨(client_never_raises (fun _ => none) 120 4 (by decide)).1,
   (client_never_raises (fun _ => none) 120 4 (by decide)).2.1
     (some "box") ⟨.error (), fun _ => .error ()⟩
     (fun _ => none) (fun _ => none) none rfl,
   (client_never_raises (fun _ => none) 120 4 (by decide)).2.2
     ⟨none, none, none⟩⟩

/-- C3: with no provisioned mailbox (`email_id` unset or empty),
`fetch_verification_code` returns nothing and issues no network
request, for every transport, extractor, parser and `since_time`. -/
theorem fetch_no_mailbox_no_request (t : Transport)
    (extract : String → Option String) (parseTs : String → Option Int)
    (since : Option Int) :
    fetch_verification_code none t extract parseTs since = (none, []) ∧
    fetch_verification_code (some "") t extract parseTs since = (none, []) := by
  constructor <;> rfl

/-- C5 counterexample: a 2xx response carrying an address but an
empty identifier makes `register_account` return failure, yet the
client still stores the response address as its email — storage is
not confined to the success case, refuting the claim's "and only
then, the client stores". -/
theorem register_account_stores_despite_failure :
    register_account ⟨some "old@a.b", some "oldid", some "oldid"⟩
      (.ok ⟨200, .json (some "new@a.b") (some "")⟩) =
      (false, ⟨some "new@a.b", some "", some ""⟩) ∧
    some "new@a.b" ≠ some "old@a.b" := by
  constructor
  · rfl
  · simp

/-- C5 (amended): `register_account` returns success if and only if
the create-mailbox request completed with status 200 or 201 and the
body holds a non-empty `email` and a non-empty `id`; in the success
case it stores that address as `email` and that identifier as
`email_id`; in every other case it returns failure (on a 2xx response
with missing or empty fields it still overwrites the stored values —
see the counterexample — so storage is not restricted to success). -/
theorem register_account_success_iff (st : ClientState)
    (r : Except Unit GenResp) :
    ((register_account st r).1 = true ↔
      ∃ resp e i, r = .ok resp ∧ (resp.status = 200 ∨ resp.status = 201) ∧
        resp.body = GenBody.json e i ∧ e.getD "" ≠ "" ∧ i.getD "" ≠ "") ∧
    (∀ resp e i, r = .ok resp → (resp.status = 200 ∨ resp.status = 201) →
      resp.body = GenBody.json e i → e.getD "" ≠ "" → i.getD "" ≠ "" →
      register_account st r =
        (true, ⟨some (e.getD ""), some (i.getD ""), some (i.getD "")⟩)) := by
  constructor
  · constructor
    · intro h
      rcases r with u | resp
      · simp [register_account] at h
      · by_cases hs : resp.status = 200 ∨ resp.status = 201
        · cases hb : resp.body with
          | empty => simp [register_account, hs, hb] at h
          | malformed => simp [register_account, hs, hb] at h
          | json e i =>
            by_cases hcond : e.getD "" ≠ "" ∧ i.getD "" ≠ ""
            · exact ⟨resp, e, i, rfl, hs, hb, hcond.1, hcond.2⟩
            · simp [register_account, hs, hb, hcond] at h
        · simp [register_account, hs] at h
    · rintro ⟨resp, e, i, rfl, hs, hb, he, hi⟩
      simp [register_account, hs, hb, he, hi]
  · rintro resp e i rfl hs hb he hi
    simp [register_account, hs, hb, he, hi]

/-- Witness for C5 (amended): a 201 response with both fields present
returns success and stores them. -/
theorem register_account_success_iff_witness :
    register_account ⟨none, none, none⟩
      (.ok ⟨201, .json (some "a@b.c") (some "xyz")⟩) =
      (true, ⟨some "a@b.c", some "xyz", some "xyz"⟩) :=
  (register_account_success_iff ⟨none, none, none⟩
      (.ok ⟨201, .json (some "a@b.c") (some "xyz")⟩)).2
    ⟨201, .json (some "a@b.c") (some "xyz")⟩ (some "a@b.c") (some "xyz")
    rfl (Or.inr rfl) rfl (by decide) (by decide)

/-- C10: `register_account` leaves the stored identity unchanged on a
transport raise or a non-2xx status, but on a 2xx response whose body
is empty or lacks a non-empty address or identifier it overwrites
`email`, `email_id` and `password` with the (possibly empty) response
values even though it returns failure. -/
theorem register_account_frame (st : ClientState) :
    (register_account st (.error ()) = (false, st)) ∧
    (∀ resp : GenResp, ¬(resp.status = 200 ∨ resp.status = 201) →
      register_account st (.ok resp) = (false, st)) ∧
    (∀ resp : GenResp, (resp.status = 200 ∨ resp.status = 201) →
      resp.body = GenBody.empty →
      register_account st (.ok resp) = (false, ⟨some "", some "", some ""⟩)) ∧
    (∀ (resp : GenResp) (e i : Option String),
      (resp.status = 200 ∨ resp.status = 201) →
      resp.body = GenBody.json e i → (e.getD "" = "" ∨ i.getD "" = "") →
      register_account st (.ok resp) =
        (false, ⟨some (e.getD ""), some (i.getD ""), some (i.getD "")⟩)) := by
  refine ⟨rfl, ?_, ?_, ?_⟩
  · intro resp hs
    simp [register_account, hs]
  · intro resp hs hb
    simp [register_account, hs, hb]
  · intro resp e i hs hb hmiss
    rcases hmiss with he | hi
    · simp [register_account, hs, hb, he]
    · simp [register_account, hs, hb, hi]

/-- Witness for C10: a previously provisioned identity survives a 500
response but is clobbered by a 200 response with a missing address. -/
theorem register_account_frame_witness :
    register_account ⟨some "o@d.e", some "oid", some "oid"⟩
      (.ok ⟨500, .json (some "a@b.c") (some "x")⟩) =
      (false, ⟨some "o@d.e", some "oid", some "oid"⟩) ∧
    register_account ⟨some "o@d.e", some "oid", some "oid"⟩
      (.ok ⟨201, .empty⟩) = (false, ⟨some "", some "", some ""⟩) ∧
    register_account ⟨some "o@d.e", some "oid", some "oid"⟩
      (.ok ⟨200, .json none (some "x")⟩) =
      (false, ⟨some "", some "x", some "x"⟩) :=
  ⟨(register_account_frame _).2.1 ⟨500, .json (some "a@b.c") (some "x")⟩
     (by decide),
   (register_account_frame _).2.2.1 ⟨201, .empty⟩ (Or.inr rfl) rfl,
   (register_account_frame _).2.2.2 ⟨200, .json none (some "x")⟩
     none (some "x") (Or.inl rfl) rfl (Or.inl rfl)⟩

/-- C6: with a `since` timestamp supplied, a message whose
creation/received timestamp parses to a time strictly before `since`
is skipped — the loop behaves exactly as if the message were absent,
so no extraction attempt and no detail fetch happen for it — while a
message whose timestamp is absent, unparseable, or at/after `since`
is still considered: if its id is non-empty and its inline content
yields a code, that code is returned. -/
theorem fetch_since_filter (t : Transport)
    (extract : String → Option String) (parseTs : String → Option Int)
    (s : Int) (m : Msg) (rest : List Msg) :
    (∀ tm : Int, createdAtOrReceivedAt m ≠ "" →
      parseTs (createdAtOrReceivedAt m) = some tm → tm < s →
      fetchLoop t extract parseTs (some s) (m :: rest) =
        fetchLoop t extract parseTs (some s) rest) ∧
    (∀ c : String, m.id.getD "" ≠ "" →
      (createdAtOrReceivedAt m = "" ∨
        parseTs (createdAtOrReceivedAt m) = none ∨
        (∃ tm : Int, parseTs (createdAtOrReceivedAt m) = some tm ∧ s ≤ tm)) →
      m.content.getD "" ≠ "" → extract (m.content.getD "") = some c →
      c ≠ "" →
      fetchLoop t extract parseTs (some s) (m :: rest) = (some c, [])) := by
  constructor
  · intro tm hca hparse hlt
    have hskip : timeSkip parseTs (some s) m = true := by
      simp [timeSkip, hca, hparse, hlt]
    by_cases hid : m.id.getD "" = ""
    · simp [fetchLoop, hid]
    · simp [fetchLoop, hid, hskip]
  · intro c hid hdisj hc hex hcne
    have hskip : timeSkip parseTs (some s) m = false := by
      rcases hdisj with hca | hnone | ⟨tm, hparse, hge⟩
      · simp [timeSkip, hca]
      · by_cases hca : createdAtOrReceivedAt m = ""
        · simp [timeSkip, hca]
        · simp [timeSkip, hca, hnone]
      · by_cases hca : createdAtOrReceivedAt m = ""
        · simp [timeSkip, hca]
        · simp [timeSkip, hca, hparse]
          omega
    simp [fetchLoop, hid, hskip, hc, hex, hcne]

/-- Witness for C6: a message stamped before `since` containing a
valid code is passed over, and a later message with an unparseable
stamp still yields its code. -/
theorem fetch_since_filter_witness :
    (fetchLoop ⟨.error (), fun _ => .error ()⟩
      (fun s => if s = "c 111111" then some "111111" else
        if s = "c 222222" then some "222222" else none)
      (fun s => if s = "t1" then some 1 else none) (some 5)
      [⟨some "m1", some "t1", none, some "c 111111"⟩] =
      fetchLoop ⟨.error (), fun _ => .error ()⟩
        (fun s => if s = "c 111111" then some "111111" else
          if s = "c 222222" then some "222222" else none)
        (fun s => if s = "t1" then some 1 else none) (some 5) []) ∧
    fetchLoop ⟨.error (), fun _ => .error ()⟩
      (fun s => if s = "c 111111" then some "111111" else
        if s = "c 222222" then some "222222" else none)
      (fun s => if s = "t1" then some 1 else none) (some 5)
      [⟨some "m2", some "garbled", none, some "c 222222"⟩] =
      (some "222222", []) :=
  ⟨(fetch_since_filter ⟨.error (), fun _ => .error ()⟩
      (fun s => if s = "c 111111" then some "111111" else
        if s = "c 222222" then some "222222" else none)
      (fun s => if s = "t1" then some 1 else none) 5
      ⟨some "m1", some "t1", none, some "c 111111"⟩ []).1
      1 (by decide) (by decide) (by decide),
   (fetch_since_filter ⟨.error (), fun _ => .error ()⟩
      (fun s => if s = "c 111111" then some "111111" else
        if s = "c 222222" then some "222222" else none)
      (fun s => if s = "t1" then some 1 else none) 5
      ⟨some "m2", some "garbled", none, some "c 222222"⟩ []).2
      "222222" (by decide) (Or.inr (Or.inl (by decide))) (by decide)
      (by decide) (by decide)⟩

/-- C7: when the first listed message has a non-empty id, a non-empty
inline content and the extractor yields a code from it,
`fetch_verification_code` (with no `since` filter) returns that code
after the message-list request alone — no detail fetch is issued. -/
theorem fetch_inline_code_single_request (emailId : Option String)
    (t : Transport) (extract : String → Option String)
    (parseTs : String → Option Int) (m : Msg) (rest : List Msg)
    (c : String)
    (hbox : emailId.getD "" ≠ "")
    (hlist : t.listReq = .ok ⟨200, .json (m :: rest)⟩)
    (hmid : m.id.getD "" ≠ "")
    (hc : m.content.getD "" ≠ "")
    (hex : extract (m.content.getD "") = some c)
    (hcne : c ≠ "") :
    fetch_verification_code emailId t extract parseTs none =
      (some c, [Req.list]) := by
  have hskip : timeSkip parseTs none m = false := rfl
  simp [fetch_verification_code, hbox, hlist, fetchLoop, hmid, hskip,
    hc, hex, hcne]

/-- Witness for C7: a concrete list whose head carries the code
inline; only the list request is performed. -/
theorem fetch_inline_code_single_request_witness :
    fetch_verification_code (some "box")
      ⟨.ok ⟨200, .json [⟨some "m1", none, none, some "code 482910"⟩,
        ⟨some "m2", none, none, none⟩]⟩, fun _ => .error ()⟩
      (fun s => if s = "code 482910" then some "482910" else none)
      (fun _ => none) none = (some "482910", [Req.list]) :=
  fetch_inline_code_single_request (some "box")
    ⟨.ok ⟨200, .json [⟨some "m1", none, none, some "code 482910"⟩,
      ⟨some "m2", none, none, none⟩]⟩, fun _ => .error ()⟩
    (fun s => if s = "code 482910" then some "482910" else none)
    (fun _ => none) ⟨some "m1", none, none, some "code 482910"⟩
    [⟨some "m2", none, none, none⟩] "482910"
    (by decide) rfl (by decide) (by decide) (by decide) (by decide)

/-- A concatenation whose first part is non-empty is non-empty. -/
theorem append_ne_empty_of_left_ne_empty (s r : String) (hs : s ≠ "") :
    s ++ r ≠ "" := by
  intro h
  have hd := congrArg String.data h
  rw [String.data_append] at hd
  have h2 : s.data = [] := (List.append_eq_nil.mp hd).1
  exact hs (congrArg String.mk h2)

/-- The html-side candidate chain on a list-of-fragments value
normalises to the concatenation of the fragments' string forms. -/
theorem firstTruthy_frags_toStr (xs : List String) :
    (firstTruthy [some (PyContent.frags xs), none]).toStr =
      String.join xs := by
  by_cases hxs : xs = []
  · subst hxs
    simp [firstTruthy, PyContent.truthy, PyContent.toStr, String.join]
  · simp [firstTruthy, PyContent.truthy, hxs, PyContent.toStr]

/-- C8: a detail payload nested under a `"message"` envelope is
unwrapped one level; the text content is read from the first
non-empty candidate field (here `text`, a plain string) and the HTML
content likewise (here `html`, a list of fragments normalised by
concatenating their string forms); the extractor is applied to text
followed by HTML and its code is returned, with exactly the list
request and one detail request issued. -/
theorem fetch_detail_envelope_code (emailId : Option String)
    (t : Transport) (extract : String → Option String)
    (parseTs : String → Option Int) (i s : String) (xs : List String)
    (c : String) (m : Msg) (topFields : DetailFields)
    (hbox : emailId.getD "" ≠ "")
    (hlist : t.listReq = .ok ⟨200, .json [m]⟩)
    (hmid : m.id.getD "" = i) (hine : i ≠ "")
    (hnoc : m.content.getD "" = "")
    (hdet : t.detailReq i =
      .ok ⟨200, .json (some ⟨some (.str s), none, none,
        some (.frags xs), none⟩) topFields⟩)
    (hs : s ≠ "")
    (hex : extract (s ++ String.join xs) = some c)
    (hcne : c ≠ "") :
    fetch_verification_code emailId t extract parseTs none =
      (some c, [Req.list, Req.detail i]) := by
  have hskip : timeSkip parseTs none m = false := rfl
  have hmidne : m.id.getD "" ≠ "" := by rw [hmid]; exact hine
  have hjoin := firstTruthy_frags_toStr xs
  have htext : firstTruthy [some (PyContent.str s), none, none] =
      PyContent.str s := by
    simp [firstTruthy, PyContent.truthy, hs]
  have htoStr : (PyContent.str s).toStr = s := rfl
  have hcontent : s ++ String.join xs ≠ "" :=
    append_ne_empty_of_left_ne_empty s (String.join xs) hs
  simp [fetch_verification_code, hbox, hlist, fetchLoop, hmidne, hskip,
    hnoc, hmid, hine, hdet, htext, hjoin, htoStr, hcontent, hex, hcne]

/-- Witness for C8: the spec's example — inline content empty, detail
`{"message": {"text": "...code: 482910..."}}` — yields `"482910"`
after one list and one detail request. -/
theorem fetch_detail_envelope_code_witness :
    fetch_verification_code (some "box")
      ⟨.ok ⟨200, .json [⟨some "m1", none, none, none⟩]⟩,
        fun j => if j = "m1" then
          .ok ⟨200, .json (some ⟨some (.str "your code: 482910 ok"),
            none, none, some (.frags []), none⟩)
            ⟨none, none, none, none, none⟩⟩
        else .error ()⟩
      (fun v => if v = "your code: 482910 ok" ++ String.join [] then
        some "482910" else none)
      (fun _ => none) none = (some "482910", [Req.list, Req.detail "m1"]) :=
  fetch_detail_envelope_code (some "box")
    ⟨.ok ⟨200, .json [⟨some "m1", none, none, none⟩]⟩,
      fun j => if j = "m1" then
        .ok ⟨200, .json (some ⟨some (.str "your code: 482910 ok"),
          none, none, some (.frags []), none⟩)
          ⟨none, none, none, none, none⟩⟩
      else .error ()⟩
    (fun v => if v = "your code: 482910 ok" ++ String.join [] then
      some "482910" else none)
    (fun _ => none) "m1" "your code: 482910 ok" [] "482910"
    ⟨some "m1", none, none, none⟩ ⟨none, none, none, none, none⟩
    (by decide) rfl rfl (by decide) rfl rfl
    (by decide) (by decide) (by decide)

/-- Every domain the cache helper can return is a non-empty string,
provided the held cache only stores non-empty strings. -/
theorem get_available_domains_all_nonempty (cache : List String)
    (cfg : Except Unit ConfigResp) (hcache : ∀ d ∈ cache, d ≠ "") :
    ∀ d ∈ get_available_domains cache cfg, d ≠ "" := by
  intro d hd
  simp only [get_available_domains] at hd
  split at hd
  · exact hcache d hd
  · split at hd
    · simp at hd
      simp [hd]
    · split at hd
      · split at hd
        · have := List.mem_filter.mp hd
          simpa using this.2
        · simp at hd
          simp [hd]
      · simp at hd
        simp [hd]

/-- C9: with neither an explicit domain argument nor a configured
default, `register_account` still selects a non-empty domain — a
failing config fetch makes the cache helper fall back to the
hardcoded `["moemail.app"]` — and the selection priority is the
argument first, then the configured default, then a pick from the
available list. -/
theorem register_domain_selection (arg : Option String)
    (selfDomain : String) (cache : List String)
    (cfg : Except Unit ConfigResp) (choice : List String → String)
    (hchoice : ∀ l, l ≠ [] → choice l ∈ l)
    (hcache : ∀ d ∈ cache, d ≠ "") :
    (register_selected_domain arg selfDomain cache cfg choice ≠ "") ∧
    (∀ d, arg = some d → d ≠ "" →
      register_selected_domain arg selfDomain cache cfg choice = d) ∧
    (arg.getD "" = "" → selfDomain ≠ "" →
      register_selected_domain arg selfDomain cache cfg choice =
        selfDomain) ∧
    (cache = [] → cfg = .error () →
      get_available_domains cache cfg = ["moemail.app"]) ∧
    (arg.getD "" = "" → selfDomain = "" →
      get_available_domains cache cfg ≠ [] →
      register_selected_domain arg selfDomain cache cfg choice =
        choice (get_available_domains cache cfg)) := by
  have hall := get_available_domains_all_nonempty cache cfg hcache
  refine ⟨?_, ?_, ?_, ?_, ?_⟩
  · by_cases harg : arg.getD "" = ""
    · by_cases hsd : selfDomain = ""
      · by_cases havail : get_available_domains cache cfg = []
        · simp [register_selected_domain, harg, hsd, havail]
        · have hmem := hchoice _ havail
          simp [register_selected_domain, harg, hsd, havail]
          exact hall _ hmem
      · simp [register_selected_domain, harg, hsd]
    · simp [register_selected_domain, harg]
  · intro d harg hdne
    subst harg
    simp [register_selected_domain, hdne]
  · intro harg hsd
    simp [register_selected_domain, harg, hsd]
  · intro hc hcfg
    subst hc
    subst hcfg
    rfl
  · intro harg hsd havail
    simp [register_selected_domain, harg, hsd, havail]

/-- Witness for C9: no argument, no configured default, unreachable
config endpoint — the hardcoded default is selected. -/
theorem register_domain_selection_witness :
    register_selected_domain none "" [] (.error ())
      (fun l => l.headD "") ≠ "" ∧
    get_available_domains ([] : List String) (.error ()) =
      ["moemail.app"] ∧
    register_selected_domain (some "pick.me") "" [] (.error ())
      (fun l => l.headD "") = "pick.me" :=
  ⟨(register_domain_selection none "" [] (.error ())
      (fun l => l.headD "")
      (by intro l hl
          cases l with
          | nil => exact absurd rfl hl
          | cons a as => simp [List.headD])
      (by simp)).1,
   (register_domain_selection none "" [] (.error ())
      (fun l => l.headD "")
      (by intro l hl
          cases l with
          | nil => exact absurd rfl hl
          | cons a as => simp [List.headD])
      (by simp)).2.2.2.1 rfl rfl,
   (register_domain_selection (some "pick.me") "" [] (.error ())
      (fun l => l.headD "")
      (by intro l hl
          cases l with
          | nil => exact absurd rfl hl
          | cons a as => simp [List.headD])
      (by simp)).2.1 "pick.me" rfl (by decide)⟩
